import Mathlib

/-!
Shallow embedding of `gitlab-protector.py`: the configuration validator,
the protection applier, the project collector and the run orchestration,
together with theorems about the behaviours they exhibit.

The remote GitLab service is modelled as an environment: the outcome of
each remote call (authentication, create-protection) is an input to the
embedded functions, and the functions record which calls they issue as an
event trace.
-/

namespace GitlabProtector

/-! ## Exit codes (module-level constants of the source) -/

def EXIT_SUCCESS : Nat := 0
def EXIT_EXECUTION_ERROR : Nat := 1
def EXIT_MISSING_ARGUMENTS : Nat := 2
def EXIT_CONFIG_NOT_FOUND : Nat := 10
def EXIT_CONFIG_PARSE_ERROR : Nat := 11
def EXIT_GITLAB_ERROR : Nat := 20
def EXIT_GITLAB_CREATE_TAG_ERROR : Nat := 21
def EXIT_GITLAB_CREATE_BRANCH_ERROR : Nat := 22
def EXIT_AUTH_ERROR : Nat := 30

/-! ## Python values

Rule dictionaries coming out of the YAML parser hold arbitrary Python
objects.  We model the value universe needed by the program: strings,
integers, booleans, `None`, lists and string-keyed dictionaries. -/

inductive PyVal where
  | vstr (s : String)
  | vint (n : Int)
  | vbool (b : Bool)
  | vnone
  | vlist (l : List PyVal)
  | vdict (d : List (String × PyVal))

/-- Python truthiness of a value (`if merge_level:` etc.). -/
def PyVal.truthy : PyVal → Bool
  | .vstr s => s ≠ ""
  | .vint n => n ≠ 0
  | .vbool b => b
  | .vnone => false
  | .vlist l => !l.isEmpty
  | .vdict d => !d.isEmpty

/-- `isinstance(v, str)`. -/
def PyVal.isStr : PyVal → Bool
  | .vstr _ => true
  | _ => false

/-- The underlying string of a string value (only used under `isStr`). -/
def PyVal.asStr : PyVal → String
  | .vstr s => s
  | _ => ""

/-- `ACCESS_LEVELS`: access-level name to the numeric GitLab constant. -/
def ACCESS_LEVELS : List (String × Nat) :=
  [("no_access", 0), ("minimal_access", 5), ("guest", 10), ("reporter", 20),
   ("developer", 30), ("maintainer", 40), ("owner", 50), ("admin", 60)]

/-- `ACCESS_LEVELS.get(s)`. -/
def lookupLevel (s : String) : Option Nat :=
  List.lookup s ACCESS_LEVELS

/-- `v in ACCESS_LEVELS` for a hashable `v`: only a string can be a key of
the string-keyed table, so every non-string hashable value tests `false`. -/
def PyVal.inLevels : PyVal → Bool
  | .vstr s => (lookupLevel s).isSome
  | _ => false

/-- `v not in ACCESS_LEVELS`, with `TypeError` (`.error`) when `v` is
unhashable (a list or a dictionary). -/
def notInLevelsChecked : PyVal → Except Unit Bool
  | .vstr s => .ok (lookupLevel s).isNone
  | .vint _ => .ok true
  | .vbool _ => .ok true
  | .vnone => .ok true
  | .vlist _ => .error ()
  | .vdict _ => .error ()

/-- A rule dictionary: string keys to Python values. -/
abbrev Rule := List (String × PyVal)

/-- `rule.get(k, d)`. -/
def pyGet (rule : Rule) (k : String) (d : PyVal) : PyVal :=
  (List.lookup k rule).getD d

/-! ## Protection applier -/

/-- Outcome of a remote create-protection call, decided by the environment:
success, `GitlabAuthenticationError`, `GitlabCreateError` with an HTTP
response code, or any other exception. -/
inductive CreateResult where
  | success
  | authErr
  | createErr (code : Option Nat)
  | otherExc

/-- Payload of `project.protectedtags.create`. -/
structure TagPayload where
  name : String
  create_access_level : Nat
  allowed_to_create : List Nat
deriving DecidableEq

/-- Payload of `project.protectedbranches.create`. -/
structure BranchPayload where
  name : String
  merge_access_level : Nat
  push_access_level : Nat
  allow_force_push : Bool
  code_owner_approval_required : Bool
deriving DecidableEq

inductive Payload where
  | tag (p : TagPayload)
  | branch (p : BranchPayload)
deriving DecidableEq

/-- Observable result of one `apply_tag_protection` /
`apply_branch_protection` call: whether the remote create call was issued
(and with which payload), whether the merge-ignored warning was printed,
whether `Logger.error` was called, and the `sys.exit` code if any. -/
structure ApplyResult where
  calledCreate : Bool
  warned : Bool
  loggedError : Bool
  exit : Option Nat
  payload : Option Payload
deriving DecidableEq

/-- The exception handlers of `apply_tag_protection` applied to the outcome
of the issued create call (mirrors lines 207-219 of the source): auth errors
exit 30; a `GitlabCreateError` with code 422 is tolerated silently; every
other failure is logged and exits 21 exactly when `stop_on_error` is set. -/
def tagOutcomeResult (stop_on_error warned : Bool) (pl : TagPayload) :
    CreateResult → ApplyResult
  | .success => ⟨true, warned, false, none, some (.tag pl)⟩
  | .authErr => ⟨true, warned, true, some EXIT_AUTH_ERROR, some (.tag pl)⟩
  | .createErr code =>
      if code = some 422 then ⟨true, warned, false, none, some (.tag pl)⟩
      else ⟨true, warned, true,
            if stop_on_error then some EXIT_GITLAB_CREATE_TAG_ERROR else none,
            some (.tag pl)⟩
  | .otherExc => ⟨true, warned, true,
                  if stop_on_error then some EXIT_GITLAB_CREATE_TAG_ERROR else none,
                  some (.tag pl)⟩

/-- `ProtectionManager.apply_tag_protection(project, rule, stop_on_error)`
with the remote call's outcome supplied by the environment. -/
def applyTagProtection (rule : Rule) (stop_on_error : Bool)
    (remote : CreateResult) : ApplyResult :=
  let name := pyGet rule "name" (.vstr "")
  let push_level := pyGet rule "push_access_level" (.vstr "")
  let merge_level := pyGet rule "merge_access_level" (.vstr "")
  if !(name.isStr && push_level.isStr) then
    ⟨false, false, true, none, none⟩
  else
    match lookupLevel push_level.asStr with
    | none => ⟨false, false, true, none, none⟩
    | some create_level =>
      if merge_level.truthy then
        match notInLevelsChecked merge_level with
        | .error _ =>
            ⟨false, false, true,
             if stop_on_error then some EXIT_GITLAB_CREATE_TAG_ERROR else none,
             none⟩
        | .ok w =>
            tagOutcomeResult stop_on_error w ⟨name.asStr, create_level, []⟩ remote
      else
        tagOutcomeResult stop_on_error false ⟨name.asStr, create_level, []⟩ remote

/-- The exception handlers of `apply_branch_protection` (lines 262-274):
auth errors exit 30; a `GitlabCreateError` with code 409 is tolerated
silently; every other failure is logged and exits 22 exactly when
`stop_on_error` is set. -/
def branchOutcomeResult (stop_on_error : Bool) (pl : BranchPayload) :
    CreateResult → ApplyResult
  | .success => ⟨true, false, false, none, some (.branch pl)⟩
  | .authErr => ⟨true, false, true, some EXIT_AUTH_ERROR, some (.branch pl)⟩
  | .createErr code =>
      if code = some 409 then ⟨true, false, false, none, some (.branch pl)⟩
      else ⟨true, false, true,
            if stop_on_error then some EXIT_GITLAB_CREATE_BRANCH_ERROR else none,
            some (.branch pl)⟩
  | .otherExc => ⟨true, false, true,
                  if stop_on_error then some EXIT_GITLAB_CREATE_BRANCH_ERROR else none,
                  some (.branch pl)⟩

/-- `ProtectionManager.apply_branch_protection(project, rule, stop_on_error)`
with the remote call's outcome supplied by the environment. -/
def applyBranchProtection (rule : Rule) (stop_on_error : Bool)
    (remote : CreateResult) : ApplyResult :=
  let name := pyGet rule "name" (.vstr "")
  let merge_level := pyGet rule "merge_access_level" (.vstr "")
  let push_level := pyGet rule "push_access_level" (.vstr "")
  if !(name.isStr && merge_level.isStr && push_level.isStr) then
    ⟨false, false, true, none, none⟩
  else
    match lookupLevel merge_level.asStr, lookupLevel push_level.asStr with
    | some mal, some pal =>
        branchOutcomeResult stop_on_error ⟨name.asStr, mal, pal, false, false⟩ remote
    | _, _ => ⟨false, false, true, none, none⟩

/-- The local checks of `apply_tag_protection` all pass, so the remote
create call is reached: `name` and `push_access_level` are strings, the
push level resolves, and the merge-level membership test does not raise. -/
def reachesTagCall (rule : Rule) : Bool :=
  let name := pyGet rule "name" (.vstr "")
  let push_level := pyGet rule "push_access_level" (.vstr "")
  let merge_level := pyGet rule "merge_access_level" (.vstr "")
  name.isStr && push_level.isStr && (lookupLevel push_level.asStr).isSome &&
    (!merge_level.truthy ||
      (match notInLevelsChecked merge_level with | .ok _ => true | .error _ => false))

/-- The local checks of `apply_branch_protection` all pass, so the remote
create call is reached. -/
def reachesBranchCall (rule : Rule) : Bool :=
  let name := pyGet rule "name" (.vstr "")
  let merge_level := pyGet rule "merge_access_level" (.vstr "")
  let push_level := pyGet rule "push_access_level" (.vstr "")
  name.isStr && merge_level.isStr && push_level.isStr &&
    (lookupLevel merge_level.asStr).isSome && (lookupLevel push_level.asStr).isSome

/-! ## Configuration loading and validation -/

/-- One pass of `_validate_protection_rules` over a single rule value.
Every way a rule can fail (not a dictionary, a missing key, an
access-level value outside the table — whether by `ValueError` or by
`TypeError` on an unhashable value) ends in the same
`EXIT_CONFIG_PARSE_ERROR`, so a boolean verdict suffices. -/
def ruleOk (v : PyVal) : Bool :=
  match v with
  | .vdict d =>
      (List.lookup "name" d).isSome &&
      (List.lookup "merge_access_level" d).isSome &&
      (List.lookup "push_access_level" d).isSome &&
      ((List.lookup "merge_access_level" d).getD .vnone).inLevels &&
      ((List.lookup "push_access_level" d).getD .vnone).inLevels
  | _ => false

/-- Python iteration over the value bound to `tags` / `branches`:
lists yield their elements, dictionaries their keys, strings their
characters; any other value raises `TypeError` (`none`). -/
def pyIter : PyVal → Option (List PyVal)
  | .vlist l => some l
  | .vdict d => some (d.map fun kv => .vstr kv.1)
  | .vstr s => some (s.toList.map fun c => .vstr (String.mk [c]))
  | _ => none

/-- `_validate_protection_rules(rules, rule_type)` succeeds: the value is
iterable and every element passes `ruleOk`. -/
def validateRules (v : PyVal) : Bool :=
  match pyIter v with
  | none => false
  | some l => l.all ruleOk

/-- The validated configuration: the list of tag rules and the list of
branch rules. -/
abbrev ProtectionConfig := List PyVal × List PyVal

/-- `ConfigValidator.load_and_validate_config`: the filesystem check and
the YAML parse are environment inputs; every exception raised inside the
`try` block maps to `EXIT_CONFIG_PARSE_ERROR`. -/
def loadAndValidateConfig (fileExistsB : Bool) (parsed : Except Unit PyVal) :
    Except Nat ProtectionConfig :=
  if !fileExistsB then .error EXIT_CONFIG_NOT_FOUND
  else
    match parsed with
    | .error _ => .error EXIT_CONFIG_PARSE_ERROR
    | .ok (.vdict d) =>
        let tagsVal := (List.lookup "tags" d).getD (.vlist [])
        let branchesVal := (List.lookup "branches" d).getD (.vlist [])
        if validateRules tagsVal && validateRules branchesVal then
          .ok ((pyIter tagsVal).getD [], (pyIter branchesVal).getD [])
        else .error EXIT_CONFIG_PARSE_ERROR
    | .ok _ => .error EXIT_CONFIG_PARSE_ERROR

/-! ## Project collector -/

/-- A lightweight subgroup reference from the flattened subgroup listing:
`getattr(subgroup, "id", None)` and `getattr(subgroup, "full_path", "")`. -/
structure SubgroupStub where
  sid : Option Nat
  full_path : String

/-- `needle` begins `hay` (character lists). -/
def beginsWith : List Char → List Char → Bool
  | [], _ => true
  | _ :: _, [] => false
  | a :: as, b :: bs => (a = b) && beginsWith as bs

/-- Python substring containment `needle in hay` on character lists. -/
def listContains (needle : List Char) : List Char → Bool
  | [] => needle.isEmpty
  | c :: t => beginsWith needle (c :: t) || listContains needle t

/-- Python `p in path` on strings. -/
def strIn (p path : String) : Bool :=
  listContains p.toList path.toList

/-- `GitLabProtector._is_excluded(path)`: the exclusion test fires only for
a truthy configured pattern (a `None` or empty `exclude` excludes
nothing), and is plain substring containment. -/
def isExcluded (exclude : Option String) (path : String) : Bool :=
  match exclude with
  | none => false
  | some p => if p = "" then false else strIn p path

/-- The work-queue loop of `_process_subgroups`: pop the front stub, skip
it if its id is missing or already visited, mark it visited, skip its
projects if its full path is excluded, otherwise fetch the group by id and
append its projects to the accumulator. -/
def processSubgroups (fetch : Nat → List Nat) (exclude : Option String) :
    List SubgroupStub → List Nat → List Nat → List Nat
  | [], _, acc => acc
  | sg :: rest, visited, acc =>
    match sg.sid with
    | none => processSubgroups fetch exclude rest visited acc
    | some i =>
      if i ∈ visited then processSubgroups fetch exclude rest visited acc
      else if isExcluded exclude sg.full_path then
        processSubgroups fetch exclude rest (i :: visited) acc
      else
        processSubgroups fetch exclude rest (i :: visited) (acc ++ fetch i)

/-- `_collect_projects`: the root group's direct projects followed by the
projects of every processed subgroup. -/
def collectProjects (rootProjects : List Nat) (fetch : Nat → List Nat)
    (exclude : Option String) (stubs : List SubgroupStub) : List Nat :=
  processSubgroups fetch exclude stubs [] rootProjects

/-- The subgroup ids actually processed (first occurrence of each id not
yet in `visited`), in queue order. -/
def newIds (visited : List Nat) : List Nat → List Nat
  | [] => []
  | x :: xs => if x ∈ visited then newIds visited xs
               else x :: newIds (x :: visited) xs

/-- Concatenation of `f` over a list of ids. -/
def flatAll (f : Nat → List Nat) : List Nat → List Nat
  | [] => []
  | x :: xs => f x ++ flatAll f xs

/-! ## Run orchestration -/

/-- Remote calls a run can issue, in order. -/
inductive Event where
  | authCall
  | getProject (p : Nat)
  | createTag (p : Nat)
  | createBranch (p : Nat)
  | printedSummary
deriving DecidableEq

/-- Outcome of `gitlab_api.auth()` in `_initialize_gitlab_api`. -/
inductive AuthOutcome where
  | ok
  | authFail
  | otherFail

/-- The run parameters taken from the parsed `Config`. -/
structure RunCfg where
  dry_run : Bool
  stop_on_error : Bool
  exclude : Option String

/-- The environment of a run: the filesystem, the YAML parser and every
remote-call outcome. -/
structure Env where
  fileExistsB : Bool
  parsed : Except Unit PyVal
  auth : AuthOutcome
  rootProjects : List Nat
  stubs : List SubgroupStub
  fetch : Nat → List Nat
  tagOutcome : Nat → Nat → CreateResult
  branchOutcome : Nat → Nat → CreateResult

/-- A validated rule element viewed as a dictionary (validation guarantees
every element of a validated list is one). -/
def asRule : PyVal → Rule
  | .vdict d => d
  | _ => []

/-- One application step: the tag or the branch applier. -/
def applyStep (isTag : Bool) (rule : Rule) (stop_on_error : Bool)
    (res : CreateResult) : ApplyResult :=
  if isTag then applyTagProtection rule stop_on_error res
  else applyBranchProtection rule stop_on_error res

/-- Apply one kind of rule list to one project, rule by rule in file
order, stopping at the first `sys.exit`.  Returns the exit code (if any)
and the create-call events issued. -/
def applyRuleSeq (isTag : Bool) (p : Nat) (stop_on_error : Bool)
    (outcome : Nat → CreateResult) :
    List PyVal → Nat → Option Nat × List Event
  | [], _ => (none, [])
  | r :: rest, i =>
    let res := applyStep isTag (asRule r) stop_on_error (outcome i)
    let evs : List Event :=
      if res.calledCreate then
        [if isTag then Event.createTag p else Event.createBranch p]
      else []
    match res.exit with
    | some c => (some c, evs)
    | none =>
      let k := applyRuleSeq isTag p stop_on_error outcome rest (i + 1)
      (k.1, evs ++ k.2)

/-- `_protect_project`: re-fetch the project, then apply every tag rule
followed by every branch rule. -/
def protectProject (env : Env) (stop_on_error : Bool)
    (tags branches : List PyVal) (p : Nat) : Option Nat × List Event :=
  let t := applyRuleSeq true p stop_on_error (env.tagOutcome p) tags 0
  match t.1 with
  | some c => (some c, Event.getProject p :: t.2)
  | none =>
    let b := applyRuleSeq false p stop_on_error (env.branchOutcome p) branches 0
    (b.1, Event.getProject p :: (t.2 ++ b.2))

/-- `_apply_protections`: process the collected projects in order,
stopping at the first `sys.exit`. -/
def applyAll (env : Env) (stop_on_error : Bool)
    (tags branches : List PyVal) : List Nat → Option Nat × List Event
  | [] => (none, [])
  | p :: ps =>
    let r := protectProject env stop_on_error tags branches p
    match r.1 with
    | some c => (some c, r.2)
    | none =>
      let k := applyAll env stop_on_error tags branches ps
      (k.1, r.2 ++ k.2)

/-- `GitLabProtector.run`: load, authenticate, collect, then either the
dry-run summary or the apply phase; a `SystemExit` raised anywhere inside
becomes the returned exit code. -/
def run (cfg : RunCfg) (env : Env) : Nat × List Event :=
  match loadAndValidateConfig env.fileExistsB env.parsed with
  | .error c => (c, [])
  | .ok (tags, branches) =>
    match env.auth with
    | .authFail => (EXIT_AUTH_ERROR, [.authCall])
    | .otherFail => (EXIT_GITLAB_ERROR, [.authCall])
    | .ok =>
      let projects := collectProjects env.rootProjects env.fetch cfg.exclude env.stubs
      if cfg.dry_run then (EXIT_SUCCESS, [.authCall, .printedSummary])
      else
        let r := applyAll env cfg.stop_on_error tags branches projects
        (r.1.getD EXIT_SUCCESS, Event.authCall :: r.2)

/-- The trace contains a mutating create-protection call. -/
def hasCreate : List Event → Bool
  | [] => false
  | e :: rest =>
    (match e with
     | .createTag _ => true
     | .createBranch _ => true
     | _ => false) || hasCreate rest

/-- The token-resolution step of `parse_arguments`:
`token = args.token or os.getenv("GITLAB_TOKEN")`, then
`sys.exit(EXIT_AUTH_ERROR)` when the result is falsy. -/
def tokenOrExit (argToken envToken : Option String) : Except Nat String :=
  let fallback : Except Nat String :=
    match envToken with
    | some s => if s = "" then .error EXIT_AUTH_ERROR else .ok s
    | none => .error EXIT_AUTH_ERROR
  match argToken with
  | some s => if s = "" then fallback else .ok s
  | none => fallback

/-- `main`: parse the arguments (which may exit before the GitLab client
is ever constructed), then run the protector. -/
def mainModel (argToken envToken : Option String) (cfg : RunCfg) (env : Env) :
    Nat × List Event :=
  match tokenOrExit argToken envToken with
  | .error c => (c, [])
  | .ok _ => run cfg env

/-! ## Lemmas: substring containment -/

lemma toList_append (s t : String) : (s ++ t).toList = s.toList ++ t.toList := rfl

lemma beginsWith_iff (n : List Char) : ∀ h : List Char,
    beginsWith n h = true ↔ ∃ t, h = n ++ t := by
  induction n with
  | nil => intro h; simp [beginsWith]
  | cons a as ih =>
    intro h
    cases h with
    | nil =>
      simp only [beginsWith, List.cons_append]
      constructor
      · intro hc; cases hc
      · rintro ⟨t, ht⟩; cases ht
    | cons b bs =>
      simp only [beginsWith, Bool.and_eq_true, decide_eq_true_eq, ih, List.cons_append]
      constructor
      · rintro ⟨rfl, t, rfl⟩; exact ⟨t, rfl⟩
      · rintro ⟨t, ht⟩
        injection ht with h1 h2
        exact ⟨h1.symm, t, h2⟩

lemma listContains_iff (n : List Char) : ∀ h : List Char,
    listContains n h = true ↔ ∃ s t, h = s ++ n ++ t := by
  intro h
  induction h with
  | nil =>
    constructor
    · intro hc
      have hn : n = [] := by
        cases n with
        | nil => rfl
        | cons a as => simp [listContains, List.isEmpty] at hc
      exact ⟨[], [], by simp [hn]⟩
    · rintro ⟨s, t, hst⟩
      obtain ⟨hs, hnt⟩ := List.append_eq_nil.mp hst.symm
      obtain ⟨_, hn⟩ := List.append_eq_nil.mp hs
      simp [listContains, hn]
  | cons c cs ih =>
    simp only [listContains, Bool.or_eq_true, ih, beginsWith_iff]
    constructor
    · rintro (⟨u, hu⟩ | ⟨s, u, hsu⟩)
      · exact ⟨[], u, by simpa using hu⟩
      · exact ⟨c :: s, u, by simp [hsu]⟩
    · rintro ⟨s, u, hsu⟩
      cases s with
      | nil => exact Or.inl ⟨u, by simpa using hsu⟩
      | cons d s' =>
        injection hsu with h1 h2
        exact Or.inr ⟨s', u, h2⟩

lemma strIn_iff (p path : String) :
    strIn p path = true ↔ ∃ s t : String, path = s ++ p ++ t := by
  unfold strIn
  rw [listContains_iff]
  constructor
  · rintro ⟨s, t, hst⟩
    refine ⟨s.asString, t.asString, String.toList_inj.mp ?_⟩
    simp only [toList_append, List.toList_asString]
    exact hst
  · rintro ⟨s, t, rfl⟩
    exact ⟨s.toList, t.toList, by simp [toList_append]⟩

/-! ## Lemmas: project collector -/

lemma processSubgroups_acc (fetch : Nat → List Nat) (exclude : Option String) :
    ∀ (stubs : List SubgroupStub) (visited acc : List Nat),
    processSubgroups fetch exclude stubs visited acc
      = acc ++ processSubgroups fetch exclude stubs visited [] := by
  intro stubs
  induction stubs with
  | nil => intro v a; simp [processSubgroups]
  | cons sg rest ih =>
    intro v a
    cases hsid : sg.sid with
    | none => simp only [processSubgroups, hsid]; exact ih v a
    | some i =>
      simp only [processSubgroups, hsid]
      by_cases hv : i ∈ v
      · rw [if_pos hv, if_pos hv]; exact ih v a
      · rw [if_neg hv, if_neg hv]
        by_cases he : isExcluded exclude sg.full_path = true
        · rw [if_pos he, if_pos he]; exact ih (i :: v) a
        · rw [if_neg he, if_neg he, ih (i :: v) (a ++ fetch i),
              ih (i :: v) ([] ++ fetch i), List.nil_append, List.append_assoc]

lemma processSubgroups_none_eq (fetch : Nat → List Nat) :
    ∀ (stubs : List SubgroupStub) (visited acc : List Nat),
    processSubgroups fetch none stubs visited acc
      = acc ++ flatAll fetch (newIds visited (stubs.filterMap SubgroupStub.sid)) := by
  intro stubs
  induction stubs with
  | nil => intro v a; simp [processSubgroups, newIds, flatAll]
  | cons sg rest ih =>
    intro v a
    cases hsid : sg.sid with
    | none =>
      simp only [processSubgroups, hsid, List.filterMap_cons]
      exact ih v a
    | some i =>
      simp only [processSubgroups, hsid, List.filterMap_cons]
      by_cases hv : i ∈ v
      · rw [if_pos hv, newIds, if_pos hv]; exact ih v a
      · rw [if_neg hv, newIds, if_neg hv]
        have hex : isExcluded none sg.full_path = false := rfl
        rw [hex]
        simp only [Bool.false_eq_true, if_false, flatAll]
        rw [ih (i :: v) (a ++ fetch i), List.append_assoc]

lemma mem_newIds (x : Nat) : ∀ (ids visited : List Nat),
    x ∈ newIds visited ids ↔ x ∈ ids ∧ x ∉ visited := by
  intro ids
  induction ids with
  | nil => intro v; simp [newIds]
  | cons y ys ih =>
    intro v
    by_cases hv : y ∈ v
    · rw [newIds, if_pos hv, ih]
      simp only [List.mem_cons]
      constructor
      · rintro ⟨h1, h2⟩; exact ⟨Or.inr h1, h2⟩
      · rintro ⟨h1 | h1, h2⟩
        · exact absurd (h1 ▸ hv) h2
        · exact ⟨h1, h2⟩
    · rw [newIds, if_neg hv]
      simp only [List.mem_cons, ih, List.mem_cons, not_or]
      constructor
      · rintro (rfl | ⟨h1, h2⟩)
        · exact ⟨Or.inl rfl, hv⟩
        · exact ⟨Or.inr h1, h2.2⟩
      · rintro ⟨rfl | h1, h2⟩
        · exact Or.inl rfl
        · by_cases hxy : x = y
          · exact Or.inl hxy
          · exact Or.inr ⟨h1, hxy, h2⟩

lemma newIds_nodup : ∀ (ids visited : List Nat), (newIds visited ids).Nodup := by
  intro ids
  induction ids with
  | nil => intro v; simp [newIds]
  | cons y ys ih =>
    intro v
    by_cases hv : y ∈ v
    · rw [newIds, if_pos hv]; exact ih v
    · rw [newIds, if_neg hv]
      refine List.nodup_cons.mpr ⟨?_, ih _⟩
      intro hmem
      exact ((mem_newIds y ys (y :: v)).mp hmem).2 (List.mem_cons_self y v)

lemma mem_flatAll (f : Nat → List Nat) (p : Nat) : ∀ ids : List Nat,
    p ∈ flatAll f ids ↔ ∃ i, i ∈ ids ∧ p ∈ f i := by
  intro ids
  induction ids with
  | nil => simp [flatAll]
  | cons x xs ih =>
    simp only [flatAll, List.mem_append, ih, List.mem_cons]
    constructor
    · rintro (h | ⟨i, hi, hp⟩)
      · exact ⟨x, Or.inl rfl, h⟩
      · exact ⟨i, Or.inr hi, hp⟩
    · rintro ⟨i, rfl | hi, hp⟩
      · exact Or.inl hp
      · exact Or.inr ⟨i, hi, hp⟩

/-! ## Lemmas: protection applier -/

/-- The warning flag computed by `apply_tag_protection` for a rule that
reaches the create call: the merge value is truthy and tests `not in
ACCESS_LEVELS`. -/
def tagWarnFlag (rule : Rule) : Bool :=
  let merge_level := pyGet rule "merge_access_level" (.vstr "")
  merge_level.truthy &&
    (match notInLevelsChecked merge_level with
     | .ok b => b
     | .error _ => false)

/-- The payload `apply_tag_protection` sends for a rule that reaches the
create call. -/
def tagPayloadOf (rule : Rule) : TagPayload :=
  ⟨(pyGet rule "name" (.vstr "")).asStr,
   (lookupLevel (pyGet rule "push_access_level" (.vstr "")).asStr).getD 0, []⟩

/-- The payload `apply_branch_protection` sends for a rule that reaches
the create call. -/
def branchPayloadOf (rule : Rule) : BranchPayload :=
  ⟨(pyGet rule "name" (.vstr "")).asStr,
   (lookupLevel (pyGet rule "merge_access_level" (.vstr "")).asStr).getD 0,
   (lookupLevel (pyGet rule "push_access_level" (.vstr "")).asStr).getD 0,
   false, false⟩

lemma applyTag_of_reach (rule : Rule) (stop : Bool) (remote : CreateResult)
    (h : reachesTagCall rule = true) :
    applyTagProtection rule stop remote
      = tagOutcomeResult stop (tagWarnFlag rule) (tagPayloadOf rule) remote := by
  unfold reachesTagCall at h
  simp only [Bool.and_eq_true, Bool.or_eq_true, Bool.not_eq_true'] at h
  obtain ⟨⟨⟨hn, hp⟩, hl⟩, hm⟩ := h
  obtain ⟨lvl, hlvl⟩ := Option.isSome_iff_exists.mp hl
  unfold applyTagProtection tagWarnFlag tagPayloadOf
  simp only [hn, hp, hlvl, Bool.and_self, Bool.not_true, Bool.false_eq_true,
    if_false, Option.getD_some]
  by_cases ht : (pyGet rule "merge_access_level" (.vstr "")).truthy = true
  · rw [if_pos ht]
    rcases hm with hm | hm
    · rw [ht] at hm; cases hm
    · rcases hmo : notInLevelsChecked (pyGet rule "merge_access_level" (.vstr ""))
        with b | e
      · rw [hmo] at hm; cases hm
      · simp [hmo, ht]
  · rw [if_neg ht]
    simp only [Bool.not_eq_true] at ht
    simp [ht]

lemma applyBranch_of_reach (rule : Rule) (stop : Bool) (remote : CreateResult)
    (h : reachesBranchCall rule = true) :
    applyBranchProtection rule stop remote
      = branchOutcomeResult stop (branchPayloadOf rule) remote := by
  unfold reachesBranchCall at h
  simp only [Bool.and_eq_true] at h
  obtain ⟨⟨⟨⟨hn, hm⟩, hp⟩, hlm⟩, hlp⟩ := h
  obtain ⟨mal, hmal⟩ := Option.isSome_iff_exists.mp hlm
  obtain ⟨pal, hpal⟩ := Option.isSome_iff_exists.mp hlp
  unfold applyBranchProtection branchPayloadOf
  simp only [hn, hm, hp, hmal, hpal, Bool.and_self, Bool.not_true,
    Bool.false_eq_true, if_false, Option.getD_some]

lemma tagOutcome_createErr (stop w : Bool) (pl : TagPayload) (code : Option Nat) :
    tagOutcomeResult stop w pl (.createErr code)
      = if code = some 422 then ⟨true, w, false, none, some (.tag pl)⟩
        else ⟨true, w, true,
              if stop then some EXIT_GITLAB_CREATE_TAG_ERROR else none,
              some (.tag pl)⟩ := rfl

lemma branchOutcome_createErr (stop : Bool) (pl : BranchPayload) (code : Option Nat) :
    branchOutcomeResult stop pl (.createErr code)
      = if code = some 409 then ⟨true, false, false, none, some (.branch pl)⟩
        else ⟨true, false, true,
              if stop then some EXIT_GITLAB_CREATE_BRANCH_ERROR else none,
              some (.branch pl)⟩ := rfl

lemma tagOutcome_fields (stop w : Bool) (pl : TagPayload) (r : CreateResult) :
    (tagOutcomeResult stop w pl r).payload = some (.tag pl)
    ∧ (tagOutcomeResult stop w pl r).warned = w
    ∧ (tagOutcomeResult stop w pl r).calledCreate = true := by
  cases r with
  | createErr code =>
    rw [tagOutcome_createErr]
    split <;> exact ⟨rfl, rfl, rfl⟩
  | success => exact ⟨rfl, rfl, rfl⟩
  | authErr => exact ⟨rfl, rfl, rfl⟩
  | otherExc => exact ⟨rfl, rfl, rfl⟩

lemma branchOutcome_fields (stop : Bool) (pl : BranchPayload) (r : CreateResult) :
    (branchOutcomeResult stop pl r).payload = some (.branch pl)
    ∧ (branchOutcomeResult stop pl r).calledCreate = true := by
  cases r with
  | createErr code =>
    rw [branchOutcome_createErr]
    split <;> exact ⟨rfl, rfl⟩
  | success => exact ⟨rfl, rfl⟩
  | authErr => exact ⟨rfl, rfl⟩
  | otherExc => exact ⟨rfl, rfl⟩

/-! ## Lemmas: validated rules -/

lemma inLevels_vstr {v : PyVal} (h : v.inLevels = true) :
    ∃ s, v = .vstr s ∧ (lookupLevel s).isSome = true := by
  cases v with
  | vstr s => exact ⟨s, rfl, h⟩
  | vint n => cases h
  | vbool b => cases h
  | vnone => cases h
  | vlist l => cases h
  | vdict d => cases h

lemma lookupLevel_ne_empty {s : String} (h : (lookupLevel s).isSome = true) :
    s ≠ "" := by
  intro hs
  rw [hs] at h
  cases h

lemma ruleOk_fields {r : Rule} (hok : ruleOk (.vdict r) = true) :
    ∃ ms ps, List.lookup "merge_access_level" r = some (.vstr ms) ∧
      (lookupLevel ms).isSome = true ∧
      List.lookup "push_access_level" r = some (.vstr ps) ∧
      (lookupLevel ps).isSome = true ∧
      (List.lookup "name" r).isSome = true := by
  unfold ruleOk at hok
  simp only [Bool.and_eq_true] at hok
  obtain ⟨⟨⟨⟨hn, hm⟩, hp⟩, hml⟩, hpl⟩ := hok
  obtain ⟨mv, hmv⟩ := Option.isSome_iff_exists.mp hm
  obtain ⟨pv, hpv⟩ := Option.isSome_iff_exists.mp hp
  rw [hmv] at hml
  rw [hpv] at hpl
  simp only [Option.getD_some] at hml hpl
  obtain ⟨ms, rfl, hms⟩ := inLevels_vstr hml
  obtain ⟨ps, rfl, hps⟩ := inLevels_vstr hpl
  exact ⟨ms, ps, hmv, hms, hpv, hps, hn⟩

lemma reachesTag_of_ruleOk {r : Rule} (hok : ruleOk (.vdict r) = true)
    (hname : (pyGet r "name" (.vstr "")).isStr = true) :
    reachesTagCall r = true := by
  obtain ⟨ms, ps, hmv, hms, hpv, hps, _⟩ := ruleOk_fields hok
  unfold reachesTagCall
  simp only [Bool.and_eq_true, Bool.or_eq_true]
  refine ⟨⟨⟨hname, ?_⟩, ?_⟩, ?_⟩
  · simp [pyGet, hpv, PyVal.isStr]
  · simp [pyGet, hpv, PyVal.asStr, hps]
  · right
    simp [pyGet, hmv, notInLevelsChecked]

lemma tagWarnFlag_of_ruleOk {r : Rule} (hok : ruleOk (.vdict r) = true) :
    tagWarnFlag r = false := by
  obtain ⟨ms, ps, hmv, hms, _, _, _⟩ := ruleOk_fields hok
  unfold tagWarnFlag
  simp only [pyGet, hmv, Option.getD_some, notInLevelsChecked]
  obtain ⟨lvl, hlvl⟩ := Option.isSome_iff_exists.mp hms
  simp [hlvl]

lemma reachesBranch_of_ruleOk {r : Rule} (hok : ruleOk (.vdict r) = true)
    (hname : (pyGet r "name" (.vstr "")).isStr = true) :
    reachesBranchCall r = true := by
  obtain ⟨ms, ps, hmv, hms, hpv, hps, _⟩ := ruleOk_fields hok
  unfold reachesBranchCall
  simp only [Bool.and_eq_true]
  refine ⟨⟨⟨⟨hname, ?_⟩, ?_⟩, ?_⟩, ?_⟩
  · simp [pyGet, hmv, PyVal.isStr]
  · simp [pyGet, hpv, PyVal.isStr]
  · simp [pyGet, hmv, PyVal.asStr, hms]
  · simp [pyGet, hpv, PyVal.asStr, hps]

/-! ## Claim theorems -/

/-- C2: collection without exclusion yields exactly the union of the root
group's direct projects and the direct projects of every subgroup; each
subgroup id is processed at most once even when the remote listing repeats
it (the processed ids are nodup), and a stub with a missing id is skipped
rather than raising. -/
theorem collect_union_no_duplicates (fetch : Nat → List Nat)
    (rootProjects : List Nat) (stubs : List SubgroupStub) :
    (∀ p, p ∈ collectProjects rootProjects fetch none stubs ↔
        p ∈ rootProjects ∨ ∃ sg, sg ∈ stubs ∧ ∃ i, sg.sid = some i ∧ p ∈ fetch i)
    ∧ collectProjects rootProjects fetch none stubs
        = rootProjects ++ flatAll fetch (newIds [] (stubs.filterMap SubgroupStub.sid))
    ∧ (newIds [] (stubs.filterMap SubgroupStub.sid)).Nodup
    ∧ (∀ (path : String) (rest : List SubgroupStub) (visited acc : List Nat)
         (exclude : Option String),
        processSubgroups fetch exclude (⟨none, path⟩ :: rest) visited acc
          = processSubgroups fetch exclude rest visited acc) := by
  refine ⟨?_, ?_, newIds_nodup _ _, ?_⟩
  · intro p
    unfold collectProjects
    rw [processSubgroups_none_eq]
    simp only [List.mem_append, mem_flatAll, mem_newIds, List.mem_filterMap,
      List.not_mem_nil, not_false_iff, and_true]
    constructor
    · rintro (h | ⟨i, ⟨sg, hsg, hsid⟩, hp⟩)
      · exact Or.inl h
      · exact Or.inr ⟨sg, hsg, i, hsid, hp⟩
    · rintro (h | ⟨sg, hsg, i, hsid, hp⟩)
      · exact Or.inl h
      · exact Or.inr ⟨i, ⟨sg, hsg, hsid⟩, hp⟩
  · unfold collectProjects
    rw [processSubgroups_none_eq]
  · intro path rest visited acc exclude
    rfl

/-- C3: the exclusion predicate is plain substring containment of a truthy
configured pattern; with no pattern nothing is excluded; the root group's
direct projects are always collected (the root is never tested); a
non-excluded subgroup contributes its projects and an excluded one
contributes none. -/
theorem exclusion_is_substring_containment :
    (∀ p path, p ≠ "" →
        (isExcluded (some p) path = true ↔ ∃ s t : String, path = s ++ p ++ t))
    ∧ (∀ path, isExcluded none path = false)
    ∧ (∀ (rootProjects : List Nat) (fetch : Nat → List Nat)
         (exclude : Option String) (stubs : List SubgroupStub) (q : Nat),
        q ∈ rootProjects → q ∈ collectProjects rootProjects fetch exclude stubs)
    ∧ (∀ (fetch : Nat → List Nat) (exclude : Option String) (i : Nat)
         (path : String) (rest : List SubgroupStub) (visited acc : List Nat),
        i ∉ visited → isExcluded exclude path = false →
        processSubgroups fetch exclude (⟨some i, path⟩ :: rest) visited acc
          = processSubgroups fetch exclude rest (i :: visited) (acc ++ fetch i))
    ∧ (∀ (fetch : Nat → List Nat) (exclude : Option String) (i : Nat)
         (path : String) (rest : List SubgroupStub) (visited acc : List Nat),
        i ∉ visited → isExcluded exclude path = true →
        processSubgroups fetch exclude (⟨some i, path⟩ :: rest) visited acc
          = processSubgroups fetch exclude rest (i :: visited) acc) := by
  refine ⟨?_, fun path => rfl, ?_, ?_, ?_⟩
  · intro p path hp
    show (if p = "" then false else strIn p path) = true ↔ _
    rw [if_neg hp, strIn_iff]
  · intro rootProjects fetch exclude stubs q hq
    unfold collectProjects
    rw [processSubgroups_acc]
    exact List.mem_append.mpr (Or.inl hq)
  · intro fetch exclude i path rest visited acc hv he
    simp only [processSubgroups]
    rw [if_neg hv, if_neg (by simp [he])]
  · intro fetch exclude i path rest visited acc hv he
    simp only [processSubgroups]
    rw [if_neg hv, if_pos he]

/-- Witness for C3 at concrete inputs. -/
theorem exclusion_is_substring_containment_witness :
    isExcluded (some "arch") "group/archived" = true
    ∧ isExcluded none "group/archived" = false
    ∧ 5 ∈ collectProjects [5] (fun _ => []) (some "arch") []
    ∧ processSubgroups (fun i => [i]) (some "arch") [⟨some 3, "g/live"⟩] [] [9]
        = processSubgroups (fun i => [i]) (some "arch") [] [3] ([9] ++ [3])
    ∧ processSubgroups (fun i => [i]) (some "arch") [⟨some 3, "g/archived"⟩] [] [9]
        = processSubgroups (fun i => [i]) (some "arch") [] [3] [9] := by
  have h := exclusion_is_substring_containment
  refine ⟨?_, h.2.1 "group/archived",
    h.2.2.1 [5] (fun _ => []) (some "arch") [] 5 (by simp), ?_, ?_⟩
  · exact (h.1 "arch" "group/archived" (by decide)).mpr ⟨"group/", "ived", rfl⟩
  · exact h.2.2.2.1 (fun i => [i]) (some "arch") 3 "g/live" [] [] [9]
      (by simp) (by decide)
  · exact h.2.2.2.2 (fun i => [i]) (some "arch") 3 "g/archived" [] [] [9]
      (by simp) (by decide)

/-- A well-formed rule used to instantiate theorems at concrete inputs. -/
def sampleRule : Rule :=
  [("name", .vstr "v*"), ("merge_access_level", .vstr "maintainer"),
   ("push_access_level", .vstr "developer")]

/-- A rule whose merge level is a non-empty string outside the table. -/
def bogusMergeRule : Rule :=
  [("name", .vstr "v*"), ("merge_access_level", .vstr "bogus"),
   ("push_access_level", .vstr "developer")]

/-- C1: a tag-protection `GitlabCreateError` with HTTP 422 and a
branch-protection one with HTTP 409 are silently tolerated (no error
logged, no exit); any other creation failure is logged and exits with 21
(tags) or 22 (branches) exactly when `stop_on_error` is set; an exit-free
application step lets the loop proceed to the next rule and project, while
an exit code aborts it immediately. -/
theorem create_failure_policy :
    (∀ rule stop, reachesTagCall rule = true →
        (applyTagProtection rule stop (.createErr (some 422))).loggedError = false
        ∧ (applyTagProtection rule stop (.createErr (some 422))).exit = none)
    ∧ (∀ rule stop, reachesBranchCall rule = true →
        (applyBranchProtection rule stop (.createErr (some 409))).loggedError = false
        ∧ (applyBranchProtection rule stop (.createErr (some 409))).exit = none)
    ∧ (∀ rule stop code, reachesTagCall rule = true → code ≠ some 422 →
        (applyTagProtection rule stop (.createErr code)).loggedError = true
        ∧ (applyTagProtection rule stop (.createErr code)).exit
            = (if stop then some EXIT_GITLAB_CREATE_TAG_ERROR else none))
    ∧ (∀ rule stop code, reachesBranchCall rule = true → code ≠ some 409 →
        (applyBranchProtection rule stop (.createErr code)).loggedError = true
        ∧ (applyBranchProtection rule stop (.createErr code)).exit
            = (if stop then some EXIT_GITLAB_CREATE_BRANCH_ERROR else none))
    ∧ (∀ isTag p stop outcome r rest i,
        (applyStep isTag (asRule r) stop (outcome i)).exit = none →
        (applyRuleSeq isTag p stop outcome (r :: rest) i).1
          = (applyRuleSeq isTag p stop outcome rest (i + 1)).1)
    ∧ (∀ isTag p stop outcome r rest i c,
        (applyStep isTag (asRule r) stop (outcome i)).exit = some c →
        (applyRuleSeq isTag p stop outcome (r :: rest) i).1 = some c)
    ∧ (∀ env stop tags branches p ps,
        (protectProject env stop tags branches p).1 = none →
        (applyAll env stop tags branches (p :: ps)).1
          = (applyAll env stop tags branches ps).1)
    ∧ (∀ env stop tags branches p ps c,
        (protectProject env stop tags branches p).1 = some c →
        (applyAll env stop tags branches (p :: ps)).1 = some c) := by
  refine ⟨?_, ?_, ?_, ?_, ?_, ?_, ?_, ?_⟩
  · intro rule stop h
    rw [applyTag_of_reach _ _ _ h]
    exact ⟨rfl, rfl⟩
  · intro rule stop h
    rw [applyBranch_of_reach _ _ _ h]
    exact ⟨rfl, rfl⟩
  · intro rule stop code h hc
    rw [applyTag_of_reach _ _ _ h, tagOutcome_createErr, if_neg hc]
    exact ⟨rfl, rfl⟩
  · intro rule stop code h hc
    rw [applyBranch_of_reach _ _ _ h, branchOutcome_createErr, if_neg hc]
    exact ⟨rfl, rfl⟩
  · intro isTag p stop outcome r rest i h
    simp [applyRuleSeq, h]
  · intro isTag p stop outcome r rest i c h
    simp [applyRuleSeq, h]
  · intro env stop tags branches p ps h
    simp [applyAll, h]
  · intro env stop tags branches p ps c h
    simp [applyAll, h]

/-- Witness for C1 at concrete inputs. -/
theorem create_failure_policy_witness :
    ((applyTagProtection sampleRule true (.createErr (some 422))).loggedError = false
      ∧ (applyTagProtection sampleRule true (.createErr (some 422))).exit = none)
    ∧ ((applyBranchProtection sampleRule true (.createErr (some 409))).loggedError = false
      ∧ (applyBranchProtection sampleRule true (.createErr (some 409))).exit = none)
    ∧ ((applyTagProtection sampleRule true (.createErr (some 500))).loggedError = true
      ∧ (applyTagProtection sampleRule true (.createErr (some 500))).exit
          = (if true then some EXIT_GITLAB_CREATE_TAG_ERROR else none))
    ∧ ((applyBranchProtection sampleRule false (.createErr (some 500))).loggedError = true
      ∧ (applyBranchProtection sampleRule false (.createErr (some 500))).exit
          = (if false then some EXIT_GITLAB_CREATE_BRANCH_ERROR else none))
    ∧ (applyRuleSeq true 7 false (fun _ => .success) [.vdict sampleRule, .vdict sampleRule] 0).1
        = (applyRuleSeq true 7 false (fun _ => .success) [.vdict sampleRule] 1).1
    ∧ (applyRuleSeq true 7 true (fun _ => .authErr) [.vdict sampleRule] 0).1
        = some EXIT_AUTH_ERROR := by
  have h := create_failure_policy
  refine ⟨h.1 sampleRule true (by decide), h.2.1 sampleRule true (by decide),
    h.2.2.1 sampleRule true (some 500) (by decide) (by decide),
    h.2.2.2.1 sampleRule false (some 500) (by decide) (by decide),
    h.2.2.2.2.1 true 7 false (fun _ => .success) (.vdict sampleRule)
      [.vdict sampleRule] 0 (by decide),
    h.2.2.2.2.2.1 true 7 true (fun _ => .authErr) (.vdict sampleRule) [] 0
      EXIT_AUTH_ERROR (by decide)⟩

/-- C6: an authentication failure raised while applying a tag or branch
protection always exits with `EXIT_AUTH_ERROR` (30), whatever the value of
`stop_on_error`. -/
theorem auth_error_always_fatal :
    (∀ rule stop, reachesTagCall rule = true →
        (applyTagProtection rule stop .authErr).exit = some EXIT_AUTH_ERROR)
    ∧ (∀ rule stop, reachesBranchCall rule = true →
        (applyBranchProtection rule stop .authErr).exit = some EXIT_AUTH_ERROR) := by
  constructor
  · intro rule stop h
    rw [applyTag_of_reach _ _ _ h]
    rfl
  · intro rule stop h
    rw [applyBranch_of_reach _ _ _ h]
    rfl

/-- Witness for C6 at a concrete rule, for both `stop_on_error` values. -/
theorem auth_error_always_fatal_witness :
    (applyTagProtection sampleRule false .authErr).exit = some EXIT_AUTH_ERROR
    ∧ (applyBranchProtection sampleRule true .authErr).exit = some EXIT_AUTH_ERROR := by
  have h := auth_error_always_fatal
  exact ⟨h.1 sampleRule false (by decide), h.2 sampleRule true (by decide)⟩

/-- C5 counterexample: a tag rule whose `merge_access_level` is present
and non-empty (`"maintainer"`, a valid level) is applied with NO warning
logged — the source only warns when the merge value is truthy and outside
`ACCESS_LEVELS`, so the claim fails at this input. -/
theorem tag_merge_warning_counterexample :
    (pyGet sampleRule "merge_access_level" (.vstr "")).truthy = true
    ∧ (applyTagProtection sampleRule false .success).calledCreate = true
    ∧ (applyTagProtection sampleRule false .success).warned = false := by
  exact ⟨by decide, by decide, by decide⟩

/-- C5 amended: for a tag rule that reaches the create call and whose
merge value is a string, the merge-ignored warning is logged iff that
value is non-empty AND not a member of the access-level table (a valid
merge level is silently dropped); the tag payload is built from the name
and the push level only, so the merge level never enters it. -/
theorem tag_merge_warning_amended (rule : Rule) (stop : Bool)
    (remote : CreateResult) (h : reachesTagCall rule = true)
    (hm : (pyGet rule "merge_access_level" (.vstr "")).isStr = true) :
    ((applyTagProtection rule stop remote).warned = true ↔
       ((pyGet rule "merge_access_level" (.vstr "")).truthy = true
        ∧ (pyGet rule "merge_access_level" (.vstr "")).inLevels = false))
    ∧ (applyTagProtection rule stop remote).payload
        = some (.tag (tagPayloadOf rule)) := by
  rw [applyTag_of_reach _ _ _ h]
  refine ⟨?_, (tagOutcome_fields _ _ _ _).1⟩
  rw [(tagOutcome_fields _ _ _ _).2.1]
  obtain ⟨s, hs⟩ : ∃ s, pyGet rule "merge_access_level" (.vstr "") = .vstr s := by
    rcases hmv : pyGet rule "merge_access_level" (.vstr "") with s | n | b | _ | l | d
    · exact ⟨s, rfl⟩
    all_goals (rw [hmv] at hm; cases hm)
  unfold tagWarnFlag
  rw [hs]
  rcases hls : lookupLevel s with _ | lvl
  · simp [PyVal.truthy, PyVal.inLevels, notInLevelsChecked, hls]
  · simp [PyVal.truthy, PyVal.inLevels, notInLevelsChecked, hls]

/-- Witness for the amended C5: a bogus merge level fires the warning and
the payload carries only the name and the resolved push level. -/
theorem tag_merge_warning_amended_witness :
    ((applyTagProtection bogusMergeRule false .success).warned = true ↔
       ((pyGet bogusMergeRule "merge_access_level" (.vstr "")).truthy = true
        ∧ (pyGet bogusMergeRule "merge_access_level" (.vstr "")).inLevels = false))
    ∧ (applyTagProtection bogusMergeRule false .success).payload
        = some (.tag (tagPayloadOf bogusMergeRule)) :=
  tag_merge_warning_amended bogusMergeRule false .success (by decide) (by decide)

/-- C10: a rule that passes load-time validation and whose name is a
string takes no defensive early-return branch in either applier: both
always reach the remote create call, and the tag applier's merge-ignored
warning never fires for it. -/
theorem validated_rule_always_reaches_create (r : Rule) (stop : Bool)
    (remote : CreateResult) (hok : ruleOk (.vdict r) = true)
    (hname : (pyGet r "name" (.vstr "")).isStr = true) :
    (applyTagProtection r stop remote).calledCreate = true
    ∧ (applyTagProtection r stop remote).warned = false
    ∧ (applyBranchProtection r stop remote).calledCreate = true := by
  have ht := reachesTag_of_ruleOk hok hname
  have hb := reachesBranch_of_ruleOk hok hname
  rw [applyTag_of_reach _ stop remote ht, applyBranch_of_reach _ stop remote hb,
    tagWarnFlag_of_ruleOk hok]
  exact ⟨(tagOutcome_fields _ _ _ _).2.2, (tagOutcome_fields _ _ _ _).2.1,
    (branchOutcome_fields _ _ _).2⟩

/-- Witness for C10 at a concrete validated rule. -/
theorem validated_rule_always_reaches_create_witness :
    (applyTagProtection sampleRule true .otherExc).calledCreate = true
    ∧ (applyTagProtection sampleRule true .otherExc).warned = false
    ∧ (applyBranchProtection sampleRule true .otherExc).calledCreate = true :=
  validated_rule_always_reaches_create sampleRule true .otherExc (by decide) (by decide)

/-- The claim's notion of a structurally bad rule: a rule dictionary
missing a required key, or carrying an access-level value outside the
table. -/
def badRuleClaim (r : PyVal) : Prop :=
  ∃ rd, r = PyVal.vdict rd ∧
    (List.lookup "name" rd = none
     ∨ List.lookup "merge_access_level" rd = none
     ∨ List.lookup "push_access_level" rd = none
     ∨ (∃ v, List.lookup "merge_access_level" rd = some v ∧ v.inLevels = false)
     ∨ (∃ v, List.lookup "push_access_level" rd = some v ∧ v.inLevels = false))

lemma ruleOk_false_of_bad {r : PyVal} (h : badRuleClaim r) : ruleOk r = false := by
  obtain ⟨rd, rfl, hcase⟩ := h
  unfold ruleOk
  rcases hcase with h | h | h | ⟨v, hv, hlv⟩ | ⟨v, hv, hlv⟩
  · simp [h]
  · simp [h]
  · simp [h]
  · simp [hv, hlv]
  · simp [hv, hlv]

lemma validateRules_false_of_bad {l : List PyVal} {r : PyVal}
    (hr : r ∈ l) (hbad : badRuleClaim r) :
    validateRules (.vlist l) = false := by
  unfold validateRules pyIter
  rw [Bool.eq_false_iff]
  intro hall
  rw [List.all_eq_true] at hall
  have := hall r hr
  rw [ruleOk_false_of_bad hbad] at this
  cases this

/-- C4: loading fails with exit code 10 when the path is not an existing
file; a rule in the `tags` or `branches` list missing a required key or
carrying an access-level value outside the table makes loading fail with
exit code 11 (no partial configuration is returned); and a run whose
configuration fails to load issues no remote call at all, in particular no
protection-creation call. -/
theorem config_validation_gate :
    (∀ parsed, loadAndValidateConfig false parsed = .error EXIT_CONFIG_NOT_FOUND)
    ∧ (∀ (d : List (String × PyVal)) (l : List PyVal) (r : PyVal),
        (List.lookup "tags" d).getD (.vlist []) = .vlist l → r ∈ l →
        badRuleClaim r →
        loadAndValidateConfig true (.ok (.vdict d)) = .error EXIT_CONFIG_PARSE_ERROR)
    ∧ (∀ (d : List (String × PyVal)) (l : List PyVal) (r : PyVal),
        (List.lookup "branches" d).getD (.vlist []) = .vlist l → r ∈ l →
        badRuleClaim r →
        loadAndValidateConfig true (.ok (.vdict d)) = .error EXIT_CONFIG_PARSE_ERROR)
    ∧ (∀ (cfg : RunCfg) (env : Env) (c : Nat),
        loadAndValidateConfig env.fileExistsB env.parsed = .error c →
        run cfg env = (c, [])) := by
  refine ⟨fun parsed => rfl, ?_, ?_, ?_⟩
  · intro d l r hl hr hbad
    have hval : validateRules ((List.lookup "tags" d).getD (.vlist [])) = false := by
      rw [hl]
      exact validateRules_false_of_bad hr hbad
    simp [loadAndValidateConfig, hval]
  · intro d l r hl hr hbad
    have hval : validateRules ((List.lookup "branches" d).getD (.vlist [])) = false := by
      rw [hl]
      exact validateRules_false_of_bad hr hbad
    simp [loadAndValidateConfig, hval]
  · intro cfg env c h
    simp [run, h]

/-- Default environment used to instantiate run-level theorems. -/
def envW : Env :=
  { fileExistsB := true, parsed := .ok (.vdict []), auth := .ok,
    rootProjects := [7], stubs := [], fetch := fun _ => [],
    tagOutcome := fun _ _ => .success, branchOutcome := fun _ _ => .success }

/-- Witness for C4 at a concrete malformed configuration. -/
theorem config_validation_gate_witness :
    loadAndValidateConfig true
        (.ok (.vdict [("tags", .vlist [.vdict [("name", .vstr "v*")]])]))
      = .error EXIT_CONFIG_PARSE_ERROR
    ∧ run ⟨false, false, none⟩
        { envW with parsed := .ok (.vdict [("tags", .vlist [.vdict [("name", .vstr "v*")]])]) }
      = (EXIT_CONFIG_PARSE_ERROR, []) := by
  have h := config_validation_gate
  refine ⟨h.2.1 [("tags", .vlist [.vdict [("name", .vstr "v*")]])]
      [.vdict [("name", .vstr "v*")]] (.vdict [("name", .vstr "v*")]) rfl
      (List.mem_singleton.mpr rfl)
      ⟨[("name", .vstr "v*")], rfl, Or.inr (Or.inl rfl)⟩, ?_⟩
  exact h.2.2.2 ⟨false, false, none⟩ _ EXIT_CONFIG_PARSE_ERROR
    (h.2.1 [("tags", .vlist [.vdict [("name", .vstr "v*")]])]
      [.vdict [("name", .vstr "v*")]] (.vdict [("name", .vstr "v*")]) rfl
      (List.mem_singleton.mpr rfl)
      ⟨[("name", .vstr "v*")], rfl, Or.inr (Or.inl rfl)⟩)

/-- C7: with the dry-run flag set a run never issues a create-protection
call, whatever the environment; and when loading and authentication
succeed it prints the rule listing and exits 0. -/
theorem dry_run_never_creates (cfg : RunCfg) (env : Env)
    (hdry : cfg.dry_run = true) :
    hasCreate (run cfg env).2 = false
    ∧ (∀ tb : ProtectionConfig,
        loadAndValidateConfig env.fileExistsB env.parsed = .ok tb →
        env.auth = .ok →
        run cfg env = (EXIT_SUCCESS, [.authCall, .printedSummary])) := by
  constructor
  · rcases hload : loadAndValidateConfig env.fileExistsB env.parsed with c | tb
    · simp [run, hload, hasCreate]
    · rcases tb with ⟨tags, branches⟩
      rcases hauth : env.auth
      · simp [run, hload, hauth, hdry, hasCreate]
      · simp [run, hload, hauth, hasCreate]
      · simp [run, hload, hauth, hasCreate]
  · rintro ⟨tags, branches⟩ hload hauth
    simp [run, hload, hauth, hdry]

/-- Witness for C7: a dry run over a loadable empty configuration. -/
theorem dry_run_never_creates_witness :
    hasCreate (run ⟨true, false, none⟩ envW).2 = false
    ∧ run ⟨true, false, none⟩ envW = (EXIT_SUCCESS, [.authCall, .printedSummary]) := by
  have h := dry_run_never_creates ⟨true, false, none⟩ envW rfl
  exact ⟨h.1, h.2 ([], []) rfl rfl⟩

/-- C8: a configuration mapping lacking the `tags` (resp. `branches`) key
loads successfully — provided the other list validates — and the
corresponding rule list of the result is empty. -/
theorem absent_rule_list_defaults_empty :
    (∀ d : List (String × PyVal), List.lookup "tags" d = none →
        validateRules ((List.lookup "branches" d).getD (.vlist [])) = true →
        ∃ pc : ProtectionConfig,
          loadAndValidateConfig true (.ok (.vdict d)) = .ok pc ∧ pc.1 = [])
    ∧ (∀ d : List (String × PyVal), List.lookup "branches" d = none →
        validateRules ((List.lookup "tags" d).getD (.vlist [])) = true →
        ∃ pc : ProtectionConfig,
          loadAndValidateConfig true (.ok (.vdict d)) = .ok pc ∧ pc.2 = []) := by
  have hv0 : validateRules (PyVal.vlist []) = true := rfl
  constructor
  · intro d htags hbr
    refine ⟨([], (pyIter ((List.lookup "branches" d).getD (.vlist []))).getD []),
      ?_, rfl⟩
    show (if validateRules ((List.lookup "tags" d).getD (.vlist []))
            && validateRules ((List.lookup "branches" d).getD (.vlist [])) then
          (Except.ok ((pyIter ((List.lookup "tags" d).getD (.vlist []))).getD [],
            (pyIter ((List.lookup "branches" d).getD (.vlist []))).getD []) :
            Except Nat ProtectionConfig)
         else .error EXIT_CONFIG_PARSE_ERROR) = _
    rw [htags, Option.getD_none, hv0, hbr]
    rfl
  · intro d hbr htags
    refine ⟨((pyIter ((List.lookup "tags" d).getD (.vlist []))).getD [], []),
      ?_, rfl⟩
    show (if validateRules ((List.lookup "tags" d).getD (.vlist []))
            && validateRules ((List.lookup "branches" d).getD (.vlist [])) then
          (Except.ok ((pyIter ((List.lookup "tags" d).getD (.vlist []))).getD [],
            (pyIter ((List.lookup "branches" d).getD (.vlist []))).getD []) :
            Except Nat ProtectionConfig)
         else .error EXIT_CONFIG_PARSE_ERROR) = _
    rw [hbr, Option.getD_none, hv0, htags]
    rfl

/-- Witness for C8: the empty mapping lacks both keys and loads to two
empty rule lists. -/
theorem absent_rule_list_defaults_empty_witness :
    (∃ pc : ProtectionConfig,
        loadAndValidateConfig true (.ok (.vdict [])) = .ok pc ∧ pc.1 = [])
    ∧ (∃ pc : ProtectionConfig,
        loadAndValidateConfig true (.ok (.vdict [])) = .ok pc ∧ pc.2 = []) := by
  have h := absent_rule_list_defaults_empty
  exact ⟨h.1 [] rfl rfl, h.2 [] rfl rfl⟩

/-- C9: with no token flag and an unset or empty `GITLAB_TOKEN`, the
process exits with code 30 before any remote call is issued (the trace is
empty: the GitLab client is never constructed). -/
theorem missing_token_exits_before_network (argToken envToken : Option String)
    (cfg : RunCfg) (env : Env) (h1 : argToken = none)
    (h2 : envToken = none ∨ envToken = some "") :
    mainModel argToken envToken cfg env = (EXIT_AUTH_ERROR, []) := by
  subst h1
  rcases h2 with rfl | rfl <;> rfl

/-- Witness for C9 at a concrete environment. -/
theorem missing_token_exits_before_network_witness :
    mainModel none (some "") ⟨false, false, none⟩ envW = (EXIT_AUTH_ERROR, []) :=
  missing_token_exits_before_network none (some "") ⟨false, false, none⟩ envW
    rfl (Or.inr rfl)

end GitlabProtector
